import Mathlib

/-!
Verification of `subnettoIp.py` (subnet-ip-generator).

The program validates a CIDR subnet string with a regex, parses it with
Python's `ipaddress.IPv4Network(subnet, strict=False)`, lists the usable
hosts with `network.hosts()`, draws one uniformly at random, records the
`(subnet, ip)` pair in an in-memory history list, and returns the address
as a dotted-quad string.

IPv4 addresses are modelled as natural numbers below 2^32.  The random
draw of `random.choice` is modelled by an explicitly passed natural
number `k`: `random.choice(seq)` picks a uniformly random valid index, so
the model selects index `k % seq.length`.
-/

namespace SubnetToIp

/-- Char-list digits to the natural number they denote in base 10
(`int(s, 10)` on an all-digit string). -/
def digitsToNat (cs : List Char) : Nat :=
  cs.foldl (fun a c => 10 * a + (c.toNat - '0'.toNat)) 0

/-- The core lexical shape of the regex
`^(\d{1,3}\.){3}\d{1,3}/\d{1,2}$` used by `IPGenerator.validate_subnet`:
four dot-separated groups of 1-3 digits, a slash, then 1-2 digits.
Since every group consists of digits only, a string matches the regex
iff it splits on `/` into exactly two parts and the first splits on `.`
into exactly four all-digit groups of the right lengths.  (Python's `\d`
also matches non-ASCII Unicode digits; the model restricts to ASCII
`0`-`9`, which is what every input relevant here uses.) -/
def matchesShape (cs : List Char) : Bool :=
  match cs.splitOn '/' with
  | [addr, plen] =>
    (match addr.splitOn '.' with
     | [a, b, c, d] =>
       [a, b, c, d].all fun g =>
         decide (1 ≤ g.length) && decide (g.length ≤ 3) && g.all Char.isDigit
     | _ => false)
    && decide (1 ≤ plen.length) && decide (plen.length ≤ 2) && plen.all Char.isDigit
  | _ => false

/-- `IPGenerator.validate_subnet`:
`bool(re.match(r'^(\d{1,3}\.){3}\d{1,3}/\d{1,2}$', subnet))`.
Python's `$` (without `re.MULTILINE`) matches at the end of the string
or just before a single newline at the end of the string, so the match
also succeeds when the shape is followed by one trailing `'\n'`. -/
def validate_subnet (s : String) : Bool :=
  matchesShape s.data
    || (s.data.getLast? == some '\n' && matchesShape s.data.dropLast)

/-- One octet of the address, as parsed by `ipaddress._parse_octet`:
non-empty, ASCII digits only, at most 3 characters, no leading zero
(except the single digit `0` itself), value at most 255. -/
def parseOctet (cs : List Char) : Option Nat :=
  if cs = [] then none
  else if ¬ (cs.all Char.isDigit = true) then none
  else if 3 < cs.length then none
  else if cs ≠ ['0'] ∧ cs.head? = some '0' then none
  else if digitsToNat cs ≤ 255 then some (digitsToNat cs) else none

/-- The dotted-quad address part, as parsed by `ipaddress`: exactly four
octets separated by dots, combined big-endian into one number. -/
def parseAddr (cs : List Char) : Option Nat :=
  match cs.splitOn '.' with
  | [a, b, c, d] => do
    let a ← parseOctet a
    let b ← parseOctet b
    let c ← parseOctet c
    let d ← parseOctet d
    pure (((a * 256 + b) * 256 + c) * 256 + d)
  | _ => none

/-- The prefix length, as parsed by `ipaddress._prefix_from_prefix_string`:
non-empty, ASCII digits only (so leading zeros are allowed here), value
at most 32. -/
def parsePrefixLen (cs : List Char) : Option Nat :=
  if cs ≠ [] ∧ cs.all Char.isDigit = true then
    if digitsToNat cs ≤ 32 then some (digitsToNat cs) else none
  else none

/-- `ipaddress.IPv4Network(s, strict=False)`, reduced to the data the
program uses: the network base address and the prefix length.  The
string is split on `/`; no slash means prefix length 32, more than one
slash is an error.  With `strict=False` the host bits of the given
address are masked away: the base address is
`ip / 2^(32-p) * 2^(32-p)` (i.e. `ip AND mask`). -/
def parseIPv4Network (s : String) : Option (Nat × Nat) :=
  match s.data.splitOn '/' with
  | [addr] => do
    let ip ← parseAddr addr
    pure (ip, 32)
  | [addr, plen] => do
    let ip ← parseAddr addr
    let p ← parsePrefixLen plen
    pure (ip / 2 ^ (32 - p) * 2 ^ (32 - p), p)
  | _ => none

/-- `list(network.hosts())` for an `IPv4Network` with base address `net`
and prefix length `p`.  Python special-cases the two short prefixes: for
a `/32`, `hosts` is `lambda: [self.network_address]`; for a `/31` it is
`self.__iter__`, which yields both addresses of the block; otherwise it
is `range(network + 1, broadcast)`, all addresses strictly between the
network and broadcast addresses. -/
def hostsList (net p : Nat) : List Nat :=
  if p = 32 then [net]
  else if p = 31 then [net, net + 1]
  else (List.range (2 ^ (32 - p) - 2)).map fun i => net + 1 + i

/-- `str(ipaddress.IPv4Address(n))`: the dotted-quad rendering. -/
def ipToString (n : Nat) : String :=
  toString (n / 2 ^ 24 % 256) ++ "." ++ toString (n / 2 ^ 16 % 256) ++ "."
    ++ toString (n / 2 ^ 8 % 256) ++ "." ++ toString (n % 256)

/-- The `SubnetError` raised by `generate_random_ip`, distinguished by
which of the three `raise` sites produced it:
`invalidFormat` is "Invalid subnet format. Use notation like
'192.168.1.0/24'"; `invalidSubnet s` is `f"Invalid subnet: {e}"` from
the `except ValueError` handler; `noUsableHosts s` is
`f"No usable hosts in subnet {s}"`. -/
inductive SubnetError where
  | invalidFormat : SubnetError
  | invalidSubnet : String → SubnetError
  | noUsableHosts : String → SubnetError
deriving DecidableEq, Repr

deriving instance DecidableEq for Except

/-- The `IPGenerator` object: its only state is
`self.history: List[Tuple[str, str]]`, the `(subnet, generated_ip)`
pairs. -/
structure IPGenerator where
  history : List (String × String)
deriving DecidableEq, Repr

/-- `IPGenerator.__init__`: the history starts empty. -/
def IPGenerator.init : IPGenerator := ⟨[]⟩

/-- `IPGenerator.generate_random_ip(self, subnet)`.  Returns the result
(the address string, or the `SubnetError` raised) together with the
generator state afterwards; the history is mutated only on the success
path, by appending `(subnet, random_ip)`.  `k` stands for the random
draw: `random.choice(ip_range)` is `ip_range[index]` for a uniformly
random valid `index`, here `k % ip_range.length`.  Note the
`SubnetError` raised at the empty-`ip_range` check is not a
`ValueError`, so it propagates past the `except ValueError` handler
unchanged. -/
def generate_random_ip (g : IPGenerator) (k : Nat) (subnet : String) :
    Except SubnetError String × IPGenerator :=
  if !validate_subnet subnet then
    (.error .invalidFormat, g)
  else
    match parseIPv4Network subnet with
    | none => (.error (.invalidSubnet subnet), g)
    | some (net, p) =>
      let ip_range := hostsList net p
      if ip_range.isEmpty then
        (.error (.noUsableHosts subnet), g)
      else
        let random_ip := ipToString (ip_range.getD (k % ip_range.length) 0)
        (.ok random_ip, ⟨g.history ++ [(subnet, random_ip)]⟩)

/-- `IPGenerator.get_history`: returns the history list. -/
def get_history (g : IPGenerator) : List (String × String) :=
  g.history

/-- `IPGenerator.clear_history`: `self.history.clear()`. -/
def clear_history (_g : IPGenerator) : IPGenerator :=
  ⟨[]⟩

/-- A session of the interactive loop restricted to subnet inputs: each
`(k, s)` is one line dispatched to `generate_random_ip` (with random
draw `k`); a raised `SubnetError` is caught at the loop and the session
continues.  Returns the `(subnet, ip)` pairs of the successful calls in
call order, with the final generator state. -/
def runOutputs : IPGenerator → List (Nat × String) → List (String × String) × IPGenerator
  | g, [] => ([], g)
  | g, (k, s) :: rest =>
    match generate_random_ip g k s with
    | (Except.ok ip, g') =>
      let r := runOutputs g' rest
      ((s, ip) :: r.1, r.2)
    | (Except.error _, g') => runOutputs g' rest

/-- The spec's history invariant for one entry: the stored IP string is the
dotted-quad form of a host of the block parsed from the stored subnet
string. -/
def entryOK (e : String × String) : Prop :=
  ∃ net p : Nat, parseIPv4Network e.1 = some (net, p) ∧
    e.2 ∈ (hostsList net p).map ipToString

/-- The spec's history invariant: every entry of the history satisfies
`entryOK`. -/
def histInv (g : IPGenerator) : Prop :=
  ∀ e ∈ g.history, entryOK e

/-! ### Helper lemmas -/

/-- A prefix length returned by `parsePrefixLen` is at most 32. -/
theorem parsePrefixLen_le (cs : List Char) (p : Nat)
    (h : parsePrefixLen cs = some p) : p ≤ 32 := by
  unfold parsePrefixLen at h
  split at h
  · split at h
    · cases h; assumption
    · cases h
  · cases h

/-- A parsed network has prefix length at most 32 and a base address with
all host bits cleared (`strict=False` masking). -/
theorem parse_some_le (s : String) (net p : Nat)
    (h : parseIPv4Network s = some (net, p)) :
    p ≤ 32 ∧ net % 2 ^ (32 - p) = 0 := by
  unfold parseIPv4Network at h
  rcases hsp : s.data.splitOn '/' with _ | ⟨a, _ | ⟨b, _ | ⟨c, t⟩⟩⟩ <;> rw [hsp] at h
  · cases h
  · simp only [Option.bind_eq_bind, Option.bind_eq_some, Option.pure_def,
      Option.some.injEq, Prod.mk.injEq] at h
    obtain ⟨ip, -, rfl, rfl⟩ := h
    simp [Nat.mod_one]
  · simp only [Option.bind_eq_bind, Option.bind_eq_some, Option.pure_def,
      Option.some.injEq, Prod.mk.injEq] at h
    obtain ⟨ip, -, q, hq, rfl, rfl⟩ := h
    exact ⟨parsePrefixLen_le b q hq, Nat.mul_mod_left _ _⟩
  · cases h

/-- The hosts list of a parsed network is never empty (Python's `hosts()`
yields the single address of a /32 and both addresses of a /31). -/
theorem hostsList_ne_nil (net p : Nat) (hple : p ≤ 32) : hostsList net p ≠ [] := by
  unfold hostsList
  by_cases h32 : p = 32
  · simp [h32]
  by_cases h31 : p = 31
  · simp [h32, h31]
  · have h4 : 4 ≤ 2 ^ (32 - p) := by
      calc (4 : Nat) = 2 ^ 2 := rfl
        _ ≤ 2 ^ (32 - p) := Nat.pow_le_pow_right (by norm_num) (by omega)
    simp only [h32, h31, if_false]
    intro hcon
    rw [List.map_eq_nil_iff, List.range_eq_nil] at hcon
    omega

/-- Selecting at index `k % length` of a non-empty list yields a member. -/
theorem getD_mod_mem (l : List Nat) (k : Nat) (h : l ≠ []) :
    l.getD (k % l.length) 0 ∈ l := by
  have hlen : 0 < l.length := List.length_pos.mpr h
  have hlt : k % l.length < l.length := Nat.mod_lt _ hlen
  rw [List.getD_eq_getElem?_getD, List.getElem?_eq_getElem hlt]
  exact List.getElem_mem hlt

/-- For prefix length at most 30, every host lies strictly between the
network address and the broadcast address `net + 2^(32-p) - 1`. -/
theorem mem_hostsList_le30 (net p x : Nat) (hple : p ≤ 30)
    (hx : x ∈ hostsList net p) : net < x ∧ x < net + 2 ^ (32 - p) - 1 := by
  unfold hostsList at hx
  have h32 : p ≠ 32 := by omega
  have h31 : p ≠ 31 := by omega
  have h4 : 4 ≤ 2 ^ (32 - p) := by
    calc (4 : Nat) = 2 ^ 2 := rfl
      _ ≤ 2 ^ (32 - p) := Nat.pow_le_pow_right (by norm_num) (by omega)
  simp only [h32, h31, if_false, List.mem_map, List.mem_range] at hx
  obtain ⟨i, hi, rfl⟩ := hx
  omega

/-- The success path of `generate_random_ip`: when the format check passes,
the string parses, and the hosts list is non-empty, the call returns the
dotted-quad form of the host at index `k % length` and appends the pair to
the history. -/
theorem generate_ok (g : IPGenerator) (k : Nat) (s : String) (net p : Nat)
    (hv : validate_subnet s = true) (hp : parseIPv4Network s = some (net, p))
    (hne : hostsList net p ≠ []) :
    generate_random_ip g k s =
      (Except.ok (ipToString ((hostsList net p).getD (k % (hostsList net p).length) 0)),
       ⟨g.history ++
         [(s, ipToString ((hostsList net p).getD (k % (hostsList net p).length) 0))]⟩) := by
  have hemp : (hostsList net p).isEmpty = false := by
    simp [List.isEmpty_iff, hne]
  simp [generate_random_ip, hv, hp, hemp]

/-- One call of `generate_random_ip` changes the history by appending the
`(subnet, ip)` pair exactly when the call succeeds, and not at all when it
raises a `SubnetError`. -/
theorem generate_hist_change (g : IPGenerator) (k : Nat) (s : String) :
    (generate_random_ip g k s).2.history =
      g.history ++ ((generate_random_ip g k s).1.toOption.map fun ip => (s, ip)).toList := by
  unfold generate_random_ip
  by_cases hv : validate_subnet s = true
  · simp only [hv, Bool.not_true]
    cases hp : parseIPv4Network s with
    | none => simp [Except.toOption]
    | some np =>
      obtain ⟨net, p⟩ := np
      by_cases hemp : (hostsList net p).isEmpty <;> simp [hemp, Except.toOption]
  · have hv' : validate_subnet s = false := by simpa using hv
    simp [hv', Except.toOption]

/-! ### Claims -/

/-- C1: for every subnet string that passes the format check and parses to an
IPv4 block with prefix length at most 30 (usable-host count at least 1),
`generate_random_ip` returns the dotted-quad form of an address strictly
between the block's network address and its broadcast address
`net + 2^(32-p) - 1`, whatever the random draw `k`. -/
theorem C1_generate_in_host_range (s : String) (net p : Nat) (g : IPGenerator) (k : Nat)
    (hv : validate_subnet s = true) (hp : parseIPv4Network s = some (net, p))
    (hple : p ≤ 30) :
    ∃ r : Nat, (generate_random_ip g k s).1 = Except.ok (ipToString r) ∧
      net < r ∧ r < net + 2 ^ (32 - p) - 1 := by
  have hne := hostsList_ne_nil net p (by omega)
  have hmem := getD_mod_mem (hostsList net p) k hne
  have hbounds := mem_hostsList_le30 net p _ hple hmem
  exact ⟨(hostsList net p).getD (k % (hostsList net p).length) 0,
    by rw [generate_ok g k s net p hv hp hne], hbounds.1, hbounds.2⟩

/-- C1 witness: the `"192.168.1.0/24"` scenario at random draw 0: the result
is an address strictly between 192.168.1.0 (3232235776) and 192.168.1.255,
i.e. one of 192.168.1.1 .. 192.168.1.254. -/
theorem C1_generate_in_host_range_witness :
    ∃ r : Nat,
      (generate_random_ip IPGenerator.init 0 "192.168.1.0/24").1 = Except.ok (ipToString r) ∧
      3232235776 < r ∧ r < 3232235776 + 2 ^ (32 - 24) - 1 :=
  C1_generate_in_host_range "192.168.1.0/24" 3232235776 24 IPGenerator.init 0
    (by decide) (by decide) (by decide)

/-- C2 counterexample: for `"10.0.0.0/32"` (prefix length 32),
`generate_random_ip` does not fail with the `noUsableHosts` error; it
returns the block's single address `"10.0.0.0"`. -/
theorem C2_short_prefix_cex :
    (generate_random_ip IPGenerator.init 0 "10.0.0.0/32").1 = Except.ok "10.0.0.0" := by
  decide

/-- C2 amended: for every subnet string that passes the format check and
parses with prefix length 31 or 32, `generate_random_ip` does not raise
`noUsableHosts`: Python's `hosts()` yields the two addresses of a /31 and the
single address of a /32, so the call returns one of the block's addresses
(for a /32, exactly the block's address). -/
theorem C2_short_prefix_amended (s : String) (net p : Nat) (g : IPGenerator) (k : Nat)
    (hv : validate_subnet s = true) (hp : parseIPv4Network s = some (net, p))
    (h3132 : p = 31 ∨ p = 32) :
    ∃ r : Nat, (generate_random_ip g k s).1 = Except.ok (ipToString r) ∧
      net ≤ r ∧ r ≤ net + (32 - p) := by
  have hne := hostsList_ne_nil net p (by omega)
  have hmem := getD_mod_mem (hostsList net p) k hne
  refine ⟨(hostsList net p).getD (k % (hostsList net p).length) 0,
    by rw [generate_ok g k s net p hv hp hne], ?_⟩
  rcases h3132 with h | h <;> subst h <;> simp [hostsList] at hmem ⊢ <;> omega

/-- C2 amended witness: `"10.0.0.0/32"` yields an address `r` with
`167772160 ≤ r ≤ 167772160` (i.e. exactly 10.0.0.0). -/
theorem C2_short_prefix_amended_witness :
    ∃ r : Nat,
      (generate_random_ip IPGenerator.init 0 "10.0.0.0/32").1 = Except.ok (ipToString r) ∧
      167772160 ≤ r ∧ r ≤ 167772160 + (32 - 32) :=
  C2_short_prefix_amended "10.0.0.0/32" 167772160 32 IPGenerator.init 0
    (by decide) (by decide) (Or.inr rfl)

/-- C3: the `noUsableHosts` branch is unreachable: for every input that
passes `validate_subnet` and parses as an `IPv4Network`, the hosts list is
non-empty and `generate_random_ip` succeeds, so the "No usable hosts"
`SubnetError` is never raised. -/
theorem C3_no_usable_hosts_unreachable (s : String) (net p : Nat) (g : IPGenerator) (k : Nat)
    (hv : validate_subnet s = true) (hp : parseIPv4Network s = some (net, p)) :
    hostsList net p ≠ [] ∧ ∃ r : String, (generate_random_ip g k s).1 = Except.ok r := by
  have hne := hostsList_ne_nil net p (parse_some_le s net p hp).1
  exact ⟨hne, _, by rw [generate_ok g k s net p hv hp hne]⟩

/-- C3 witness: at `"10.0.0.64/26"` the hosts list of the parsed block is
non-empty and the call succeeds. -/
theorem C3_no_usable_hosts_unreachable_witness :
    hostsList 167772224 26 ≠ [] ∧
      ∃ r : String, (generate_random_ip IPGenerator.init 0 "10.0.0.64/26").1 = Except.ok r :=
  C3_no_usable_hosts_unreachable "10.0.0.64/26" 167772224 26 IPGenerator.init 0
    (by decide) (by decide)

/-- C4 counterexample: `"192.168.1.0/24\n"` does not match the lexical shape
of four 1-3 digit dot-separated groups, a slash, and 1-2 digits, yet
`generate_random_ip` fails with `invalidSubnet`, not `invalidFormat`: the
trailing newline is accepted by the regex's `$` and rejected only at parse
time. -/
theorem C4_invalid_format_cex :
    matchesShape ("192.168.1.0/24\n").data = false ∧
      (generate_random_ip IPGenerator.init 0 "192.168.1.0/24\n").1 =
        Except.error (SubnetError.invalidSubnet "192.168.1.0/24\n") := by
  decide

/-- C4 amended: for every string rejected by `validate_subnet` — not of the
dotted-quad/prefix shape even after allowing the single trailing newline that
Python's `$` anchor tolerates — `generate_random_ip` fails with the
`invalidFormat` error raised before any parsing, leaves the state unchanged,
and raises no other error kind. -/
theorem C4_invalid_format_amended (s : String) (g : IPGenerator) (k : Nat)
    (hv : validate_subnet s = false) :
    generate_random_ip g k s = (Except.error SubnetError.invalidFormat, g) := by
  simp [generate_random_ip, hv]

/-- C4 amended witness: `"not-an-ip"` fails with `invalidFormat`. -/
theorem C4_invalid_format_amended_witness :
    generate_random_ip IPGenerator.init 0 "not-an-ip" =
      (Except.error SubnetError.invalidFormat, IPGenerator.init) :=
  C4_invalid_format_amended "not-an-ip" IPGenerator.init 0 (by decide)

/-- C5: `validate_subnet` is a purely syntactic check: it accepts every
string of the lexical shape with no bound check on octets or prefix, and
when such a string fails semantic parsing `generate_random_ip` fails with
`invalidSubnet`, not `invalidFormat`. -/
theorem C5_syntactic_only (s : String) (hshape : matchesShape s.data = true) :
    validate_subnet s = true ∧
      (parseIPv4Network s = none →
        ∀ (g : IPGenerator) (k : Nat),
          generate_random_ip g k s = (Except.error (SubnetError.invalidSubnet s), g)) := by
  have hv : validate_subnet s = true := by
    unfold validate_subnet
    rw [hshape]
    rfl
  exact ⟨hv, fun hp g k => by simp [generate_random_ip, hv, hp]⟩

/-- C5 witness: `"999.999.999.999/99"` passes `validate_subnet` (octets
above 255 and prefix above 32 notwithstanding) and fails only at parse time
with `invalidSubnet`. -/
theorem C5_syntactic_only_witness :
    validate_subnet "999.999.999.999/99" = true ∧
      generate_random_ip IPGenerator.init 0 "999.999.999.999/99" =
        (Except.error (SubnetError.invalidSubnet "999.999.999.999/99"), IPGenerator.init) :=
  ⟨(C5_syntactic_only "999.999.999.999/99" (by decide)).1,
   (C5_syntactic_only "999.999.999.999/99" (by decide)).2 (by decide) IPGenerator.init 0⟩

/-- C6: a subnet string whose address part has host bits set below the prefix
is not rejected: parsing masks the address down to the block's base (the base
has all host bits zero), and the call succeeds with exactly the address it
returns for any other string parsing to the same block under the same random
draw. -/
theorem C6_host_bits_masked (s t : String) (net p : Nat) (g g' : IPGenerator) (k : Nat)
    (hvs : validate_subnet s = true) (hvt : validate_subnet t = true)
    (hps : parseIPv4Network s = some (net, p)) (hpt : parseIPv4Network t = some (net, p)) :
    net % 2 ^ (32 - p) = 0 ∧
      ∃ ip : String, (generate_random_ip g k s).1 = Except.ok ip ∧
        (generate_random_ip g' k t).1 = Except.ok ip := by
  have h := parse_some_le s net p hps
  have hne := hostsList_ne_nil net p h.1
  exact ⟨h.2, _, by rw [generate_ok g k s net p hvs hps hne],
    by rw [generate_ok g' k t net p hvt hpt hne]⟩

/-- C6 witness: `"192.168.1.5/24"` (host bits set) and the canonical
`"192.168.1.0/24"` parse to the same block and produce the same address at
random draw 0. -/
theorem C6_host_bits_masked_witness :
    3232235776 % 2 ^ (32 - 24) = 0 ∧
      ∃ ip : String,
        (generate_random_ip IPGenerator.init 0 "192.168.1.5/24").1 = Except.ok ip ∧
        (generate_random_ip IPGenerator.init 0 "192.168.1.0/24").1 = Except.ok ip :=
  C6_host_bits_masked "192.168.1.5/24" "192.168.1.0/24" 3232235776 24
    IPGenerator.init IPGenerator.init 0 (by decide) (by decide) (by decide) (by decide)

/-- C7: the history invariant — every stored `(subnet, ip)` pair has `ip` in
the host range of the block parsed from `subnet` — holds of the fresh
generator and is preserved by `generate_random_ip` (successful or failing)
and by `clear_history`; `get_history` reads the state without changing it. -/
theorem C7_history_invariant (g : IPGenerator) (hg : histInv g) (k : Nat) (s : String) :
    histInv IPGenerator.init ∧ histInv (generate_random_ip g k s).2 ∧
      histInv (clear_history g) := by
  refine ⟨?_, ?_, ?_⟩
  · intro e he
    simp [IPGenerator.init] at he
  · by_cases hv : validate_subnet s = true
    · cases hp : parseIPv4Network s with
      | none =>
        simpa [generate_random_ip, hv, hp] using hg
      | some np =>
        obtain ⟨net, p⟩ := np
        have hne := hostsList_ne_nil net p (parse_some_le s net p hp).1
        rw [generate_ok g k s net p hv hp hne]
        intro e he
        simp only [List.mem_append, List.mem_singleton] at he
        rcases he with he | rfl
        · exact hg e he
        · exact ⟨net, p, hp,
            List.mem_map_of_mem _ (getD_mod_mem _ k hne)⟩
    · have hv' : validate_subnet s = false := by simpa using hv
      simpa [generate_random_ip, hv'] using hg
  · intro e he
    simp [clear_history] at he

/-- C7 witness: the invariant holds of the fresh generator and after one
successful generation from `"192.168.1.0/24"`, and after clearing. -/
theorem C7_history_invariant_witness :
    histInv IPGenerator.init ∧
      histInv (generate_random_ip IPGenerator.init 0 "192.168.1.0/24").2 ∧
      histInv (clear_history IPGenerator.init) :=
  C7_history_invariant IPGenerator.init (by simp [histInv, IPGenerator.init]) 0 "192.168.1.0/24"

/-- Auxiliary for C8: over a whole session, the final history is the starting
history extended by exactly the `(subnet, ip)` pairs of the successful calls,
in call order. -/
theorem runOutputs_history (inputs : List (Nat × String)) :
    ∀ g : IPGenerator,
      (runOutputs g inputs).2.history = g.history ++ (runOutputs g inputs).1 := by
  induction inputs with
  | nil =>
    intro g
    simp [runOutputs]
  | cons hd tl ih =>
    intro g
    obtain ⟨k, s⟩ := hd
    have hchange := generate_hist_change g k s
    rcases hgen : generate_random_ip g k s with ⟨res, g'⟩
    rw [hgen] at hchange
    unfold runOutputs
    rw [hgen]
    cases res with
    | ok ip =>
      simp only [Except.toOption] at hchange
      simp [ih g', hchange]
    | error e =>
      simp only [Except.toOption] at hchange
      simp [ih g', hchange]

/-- C8: history round-trip: from a fresh generator, after any session the
history returned by `get_history` is exactly the `(subnet, ip)` pairs of the
successful `generate_random_ip` calls in call order (failing calls leave the
history unchanged: one call appends the pair exactly when it succeeds);
after `clear_history` the history is empty. -/
theorem C8_history_round_trip (g : IPGenerator) (inputs : List (Nat × String)) :
    (runOutputs g inputs).2.history = g.history ++ (runOutputs g inputs).1 ∧
      get_history (runOutputs IPGenerator.init inputs).2 =
        (runOutputs IPGenerator.init inputs).1 ∧
      get_history (clear_history (runOutputs g inputs).2) = [] ∧
      ∀ (k : Nat) (s : String),
        (generate_random_ip g k s).2.history =
          g.history ++ ((generate_random_ip g k s).1.toOption.map fun ip => (s, ip)).toList := by
  refine ⟨runOutputs_history inputs g, ?_, rfl, fun k s => generate_hist_change g k s⟩
  simpa [get_history, IPGenerator.init] using runOutputs_history inputs IPGenerator.init

/-- C9: `clear_history` is idempotent: it always leaves the history empty (so
on an already-empty history it is a no-op and does not fail), and clearing
twice is the same as clearing once. -/
theorem C9_clear_idempotent (g : IPGenerator) :
    clear_history (clear_history g) = clear_history g ∧
      get_history (clear_history g) = [] ∧
      clear_history IPGenerator.init = IPGenerator.init :=
  ⟨rfl, rfl, rfl⟩

/-- C10: because the regex's `$` also matches just before a trailing newline,
`validate_subnet` accepts `"192.168.1.0/24\n"` although that string is not
solely of the dotted-quad/prefix shape; the input therefore reaches the
parsing step instead of being rejected as `invalidFormat` (there it fails as
`invalidSubnet`). -/
theorem C10_trailing_newline :
    validate_subnet "192.168.1.0/24\n" = true ∧
      matchesShape ("192.168.1.0/24\n").data = false ∧
      ∀ (g : IPGenerator) (k : Nat),
        generate_random_ip g k "192.168.1.0/24\n" =
          (Except.error (SubnetError.invalidSubnet "192.168.1.0/24\n"), g) := by
  refine ⟨by decide, by decide, fun g k => ?_⟩
  have hv : validate_subnet "192.168.1.0/24\n" = true := by decide
  have hp : parseIPv4Network "192.168.1.0/24\n" = none := by decide
  simp [generate_random_ip, hv, hp]

end SubnetToIp
